import Mathlib
/-!
Verification of the chord-wheel-writer audio/export engine.

Shallow embedding of the relevant TypeScript sources:
  * `src/utils/exportMidi.ts` — WAV encoding (`audioBufferToWav`), song
    duration (`calculateSongDuration`), audio export (`exportSongAsAudio`),
    MIDI note-event generation (`exportSongAsMidi`).
  * `src/utils/audioEngine.ts` — chord voicing in `playChord`.
  * `src/store/useSongStore.ts` — song data model and the store operations.
  * `src/components/wheel/ChordWheel.tsx` — diatonic wheel-position logic.

JavaScript numbers are modelled as `ℚ` (the data model documents beat
durations as rationals and every arithmetic operation used here is exact on
the inputs that occur), machine integers as `Int`/`Nat` with explicit
`% 2^w` where the code relies on wrapping.
-/
namespace ChordWheel

/-! ## JavaScript numeric primitives -/
/-- `Math.round` on a rational: round half toward positive infinity. -/
def jsRound (q : ℚ) : Int := ⌊q + 1 / 2⌋

/-- JavaScript `ToIntegerOrInfinity`: truncation toward zero. -/
def truncInt (q : ℚ) : Int := if q < 0 then ⌈q⌉ else ⌊q⌋

/-- Coercion of an integer into a 16-bit two's-complement value, as performed
by a JS `Int16Array` element store (wrap modulo `2^16` into
`[-32768, 32767]`). -/
def toInt16 (x : Int) : Int :=
  if 32768 ≤ x % 65536 then x % 65536 - 65536 else x % 65536

/-! ## 16-bit PCM quantization (`audioBufferToWav`, exportMidi.ts:483-488)

```js
const s = Math.max(-1, Math.min(1, interleaved[i]));
samples[i] = s < 0 ? s * 0x8000 : s * 0x7FFF;
```
-/
/-- The hard clamp `Math.max(-1, Math.min(1, s))`. -/
def clampUnit (s : ℚ) : ℚ := max (-1) (min 1 s)

/-- The scaling step: negatives by `0x8000`, non-negatives by `0x7FFF`. -/
def scale16 (s : ℚ) : ℚ := if s < 0 then s * 32768 else s * 32767

/-- One sample of the 16-bit PCM conversion: clamp, scale, then store into an
`Int16Array` slot (truncation toward zero followed by 16-bit wrap). -/
def quantizeSample (s : ℚ) : Int := toInt16 (truncInt (scale16 (clampUnit s)))

/-! ## DataView byte-store model

`audioBufferToWav` fills an `ArrayBuffer` through a `DataView`.  A buffer is a
`List Nat` of byte values; `view.setUintN`/`setInt16` little-endian stores
become `writeBytes` of the value's little-endian byte decomposition at the
given offset.  The divisions `v / 256^k % 256` agree with the bytes of
`v mod 2^N`, which is the coercion a `DataView` store performs. -/
/-- Little-endian bytes of a 16-bit store (`view.setUint16 _ v true`). -/
def le16 (v : Nat) : List Nat := [v % 256, v / 256 % 256]

/-- Little-endian bytes of a 32-bit store (`view.setUint32 _ v true`). -/
def le32 (v : Nat) : List Nat :=
  [v % 256, v / 256 % 256, v / 65536 % 256, v / 16777216 % 256]

/-- The unsigned 16-bit pattern stored for a signed 16-bit value
(`view.setInt16` writes the two's-complement bytes). -/
def u16ofInt (x : Int) : Nat := (x % 65536).toNat

/-- `writeString`: the byte values `str.charCodeAt i` of an ASCII string. -/
def strBytes (s : String) : List Nat := s.data.map Char.toNat

/-- Store a run of bytes at consecutive offsets of a byte buffer. -/
def writeBytes : List Nat → Nat → List Nat → List Nat
  | l, _, [] => l
  | l, off, b :: bs => writeBytes (l.set off b) (off + 1) bs

/-- The sample-writing loop of `audioBufferToWav`
(`view.setInt16(offset + i * 2, samples[i], true)`). -/
def writeSamples : List Nat → Nat → List Int → List Nat
  | l, _, [] => l
  | l, off, s :: ss => writeSamples (writeBytes l off (le16 (u16ofInt s))) (off + 2) ss

/-- The interleaving loop of `audioBufferToWav`: slot `i * numChannels + channel`
receives `channelData[i]` of channel `channel`; equivalently slot `j` holds
channel `j % numChannels`, frame `j / numChannels`.  `data ch i` is the model of
`audioBuffer.getChannelData(ch)[i]`. -/
def interleavedSamples (numChannels length : Nat) (data : Nat → Nat → ℚ) : List ℚ :=
  (List.range (length * numChannels)).map fun j => data (j % numChannels) (j / numChannels)

/-- `audioBufferToWav` (exportMidi.ts:463-522) on a non-null buffer: interleave,
quantize to 16-bit PCM, then fill a `44 + 2·samples` byte buffer with the RIFF
header fields at offsets 0..43 and the samples from offset 44, in the order the
code performs its `DataView` stores. -/
def audioBufferToWav (numChannels sampleRate length : Nat) (data : Nat → Nat → ℚ) :
    List Nat :=
  let samples : List Int := (interleavedSamples numChannels length data).map quantizeSample
  let n := samples.length * 2
  writeSamples
    (writeBytes (writeBytes (writeBytes (writeBytes (writeBytes (writeBytes (writeBytes
      (writeBytes (writeBytes (writeBytes (writeBytes (writeBytes (writeBytes
        (List.replicate (44 + n) 0)
        0 (strBytes "RIFF")) 4 (le32 (36 + n))) 8 (strBytes "WAVE")) 12 (strBytes "fmt "))
        16 (le32 16)) 20 (le16 1)) 22 (le16 numChannels)) 24 (le32 sampleRate))
        28 (le32 (sampleRate * numChannels * 2))) 32 (le16 (numChannels * 2))) 34 (le16 16))
        36 (strBytes "data")) 40 (le32 n))
    44 samples

/-- The 44-byte header as the specification describes it: `RIFF` magic,
chunk size `36 + payload`, `WAVE` tag, `fmt ` subchunk of size 16 with PCM
format code 1, channel count, sample rate, byte rate, block align, 16 bits
per sample, then a `data` subchunk declaring the payload byte length. -/
def wavHeaderBytes (numChannels sampleRate payload : Nat) : List Nat :=
  strBytes "RIFF" ++ le32 (36 + payload) ++ strBytes "WAVE" ++ strBytes "fmt " ++
    le32 16 ++ le16 1 ++ le16 numChannels ++ le32 sampleRate ++
    le32 (sampleRate * numChannels * 2) ++ le16 (numChannels * 2) ++ le16 16 ++
    strBytes "data" ++ le32 payload

/-! ## Song data model (`src/types`, as used by the store and the exporters)

Beat durations and tempo are JS numbers; the data model documents durations
as rationals, and all arithmetic performed on them here is exact, so they are
embedded as `ℚ`.  `id` strings are opaque (uuids). -/
structure Chord where
  root : String
  quality : String
  numeral : Option String
  notes : List String
  symbol : String
deriving DecidableEq

structure Beat where
  id : String
  chord : Option Chord
  duration : ℚ
deriving DecidableEq

structure Measure where
  id : String
  beats : List Beat
deriving DecidableEq

/-- A song section (`Section` in types); `kind` is the source's `type` field,
`timeSignature` is optional and falls back to the song-level signature. -/
structure SongSection where
  id : String
  name : String
  kind : String
  timeSignature : Option (ℚ × ℚ)
  measures : List Measure
deriving DecidableEq

structure Song where
  id : String
  title : String
  artist : String
  key : String
  tempo : ℚ
  timeSignature : ℚ × ℚ
  sections : List SongSection
deriving DecidableEq

/-- All beats of a song in timeline order (sections, then measures, then
beats), the iteration order of every `forEach` pass in the source. -/
def allBeats (song : Song) : List Beat :=
  song.sections.flatMap fun sec => sec.measures.flatMap fun m => m.beats

/-- `calculateSongDuration` (exportMidi.ts:149-163): total beats accumulated
over every section/measure/beat, times `60 / tempo`, plus a 2-second tail. -/
def calculateSongDuration (song : Song) : ℚ :=
  ((allBeats song).foldl (fun acc b => acc + b.duration) 0) * (60 / song.tempo) + 2

/-- Modelled from the spec: `Tone.Offline(cb, duration, 2, sampleRate)` is the
external Tone.js renderer; per the spec's Offline Renderer section it produces
a fixed-length buffer bounded by the computed duration, i.e.
`duration × sampleRate` frames (rounded up to an integral count; every
duration this development evaluates is integral, where all roundings agree). -/
def renderFrames (duration : ℚ) (sampleRate : Nat) : Nat :=
  (⌈duration * sampleRate⌉).toNat

/-- `exportSongAsAudio` (exportMidi.ts:385-458): render the song offline at
`calculateSongDuration` seconds, 2 channels, then encode with
`audioBufferToWav`.  `data` is the rendered channel content, opaque here. -/
def exportSongAsAudioBytes (song : Song) (sampleRate : Nat) (data : Nat → Nat → ℚ) :
    List Nat :=
  audioBufferToWav 2 sampleRate (renderFrames (calculateSongDuration song) sampleRate) data

/-- C major triad as materialized by the wheel (root, third, fifth). -/
def cMajorChord : Chord :=
  { root := "C", quality := "major", numeral := some "I", notes := ["C", "E", "G"],
    symbol := "C" }

/-- The reference song of the end-to-end scenario: one section, one measure,
4/4, four quarter-note C-major beats, tempo 120. -/
def refSong : Song :=
  { id := "ref", title := "Reference", artist := "", key := "C", tempo := 120,
    timeSignature := (4, 4),
    sections := [
      { id := "s1", name := "Verse 1", kind := "verse", timeSignature := some (4, 4),
        measures := [
          { id := "m1", beats := [
            { id := "b1", chord := some cMajorChord, duration := 1 },
            { id := "b2", chord := some cMajorChord, duration := 1 },
            { id := "b3", chord := some cMajorChord, duration := 1 },
            { id := "b4", chord := some cMajorChord, duration := 1 }] }] }] }

/-! ## Failure path of `audioBufferToWav` (exportMidi.ts:463-467)

```js
const audioBuffer = buffer.get();
if (!audioBuffer) { throw new Error('Failed to get audio buffer'); }
```
A thrown JS `Error` carries only a message string. -/
/-- A JavaScript `Error` value: only a message, no error-kind tag. -/
structure JsError where
  message : String
deriving DecidableEq

/-- The offline render result handed to `audioBufferToWav`:
`buffer.get()` may yield no usable `AudioBuffer` (`none`). -/
structure AudioBufferModel where
  numberOfChannels : Nat
  sampleRate : Nat
  length : Nat
  channelData : Nat → Nat → ℚ

/-- `audioBufferToWav` including its failure path: with no usable buffer it
throws `new Error('Failed to get audio buffer')` before any output bytes are
assembled; otherwise it returns the encoded bytes. -/
def audioBufferToWavChecked (buffer : Option AudioBufferModel) :
    Except JsError (List Nat) :=
  match buffer with
  | none => .error { message := "Failed to get audio buffer" }
  | some b =>
      .ok (audioBufferToWav b.numberOfChannels b.sampleRate b.length b.channelData)

/-! ## MIDI note-event generation (`exportSongAsMidi`, exportMidi.ts:37-104)

The track's tempo/time-signature/name metadata and the midi-writer-js binary
serialization are outside the claim; the note events the code adds to the
track are modelled as a list. -/
/-- `str.replace(t, r)` with a string pattern replaces the first occurrence. -/
def replaceFirst : List Char → Char → Char → List Char
  | [], _, _ => []
  | c :: rest, t, r => if c = t then r :: rest else c :: replaceFirst rest t r

/-- `noteToMidiPitch` (exportMidi.ts:19-23):
`note.replace('♯', '#').replace('♭', 'b')`. -/
def noteToMidiPitch (note : String) : String :=
  ⟨replaceFirst (replaceFirst note.data '♯' '#') '♭' 'b'⟩

/-- `durationToTicks` (exportMidi.ts:29-32): `Math.round(durationBeats * 128)`. -/
def durationToTicks (durationBeats : ℚ) : Int := jsRound (durationBeats * 128)

/-- One `MidiWriter.NoteEvent` as constructed by `exportSongAsMidi`: the
chord's pitches fired simultaneously at `startTick` for `durationTicks`. -/
structure NoteEvent where
  pitch : List String
  durationTicks : Int
  startTick : Int
deriving DecidableEq

/-- One step of the `forEach` body of `exportSongAsMidi` (exportMidi.ts:66-87):
emit an event when the beat has a chord with non-empty notes, then advance
`tickPosition` by the beat's tick duration in every case. -/
def midiStep (acc : Int × List NoteEvent) (beat : Beat) : Int × List NoteEvent :=
  let events :=
    match beat.chord with
    | some c =>
        if c.notes.length > 0 then
          acc.2 ++ [{ pitch := c.notes.map noteToMidiPitch,
                      durationTicks := durationToTicks beat.duration,
                      startTick := acc.1 }]
        else acc.2
    | none => acc.2
  (acc.1 + durationToTicks beat.duration, events)

/-- The note events `exportSongAsMidi` adds to its track, in order. -/
def exportSongNoteEvents (song : Song) : List NoteEvent :=
  ((allBeats song).foldl midiStep (0, [])).2

/-- The final value of the `tickPosition` cursor of `exportSongAsMidi`. -/
def midiTickCursor (song : Song) : Int :=
  ((allBeats song).foldl midiStep (0, [])).1

/-- Accumulated tick position before the `i`-th beat: the tick durations of
all preceding beats, rests included. -/
def ticksBefore (bs : List Beat) (i : Nat) : Int :=
  ((bs.take i).map fun b => durationToTicks b.duration).sum

/-- The claim's description of the exported note sequence: one event per beat
whose chord is non-null with non-empty notes, in timeline order, starting at
the accumulated tick position, lasting `round(durationBeats × 128)` ticks. -/
def midiEventsSpec (song : Song) : List NoteEvent :=
  let bs := allBeats song
  (List.range bs.length).filterMap fun i =>
    match bs.get? i with
    | some b =>
        match b.chord with
        | some c =>
            if c.notes.length > 0 then
              some { pitch := c.notes.map noteToMidiPitch,
                     durationTicks := durationToTicks b.duration,
                     startTick := ticksBefore bs i }
            else none
        | none => none
    | none => none

/-! ## Diatonic wheel positions (`ChordWheel.tsx`)

`keyIndex` is the selected key's index in `CIRCLE_OF_FIFTHS`, `posIndex` a
wheel position, both in `0..11`; `getRelativePosition` is
`(posIndex - keyIndex + 12) % 12` (the operand is non-negative for indices in
range, so JS `%` agrees with `Nat` mod of `posIndex + 12 - keyIndex`). -/
/-- The four segment slots a wheel position carries: the major-ring segment,
the two minor-ring slots (`'ii'` left, `'iii'` right), and the
diminished-ring notch. -/
inductive SlotType where
  | major
  | ii
  | iii
  | dim
deriving DecidableEq, Fintype

def getRelativePosition (keyIndex posIndex : Nat) : Nat :=
  (posIndex + 12 - keyIndex) % 12

/-- `isPositionDiatonic` (ChordWheel.tsx:142-162). -/
def isPositionDiatonic (keyIndex posIndex : Nat) (t : SlotType) : Bool :=
  let relPos := getRelativePosition keyIndex posIndex
  match t with
  | .major => relPos == 0 || relPos == 1 || relPos == 11
  | .ii => relPos == 0
  | .iii => relPos == 0
  | .dim => relPos == 0

/-- `isViPosition` (ChordWheel.tsx:165-168): the V position's left minor slot
is vi. -/
def isViPosition (keyIndex posIndex : Nat) : Bool :=
  getRelativePosition keyIndex posIndex == 1

/-- `getRomanNumeral` (ChordWheel.tsx:171-190). -/
def getRomanNumeral (keyIndex posIndex : Nat) (t : SlotType) : String :=
  let relPos := getRelativePosition keyIndex posIndex
  match t with
  | .major =>
      if relPos == 0 then "I"
      else if relPos == 1 then "V"
      else if relPos == 11 then "IV"
      else ""
  | .ii => if relPos == 0 then "ii" else if relPos == 1 then "vi" else ""
  | .iii => if relPos == 0 then "iii" else ""
  | .dim => if relPos == 0 then "vii°" else ""

/-! ## Chord voicing (`playChord`, audioEngine.ts:126-176) -/
/-- The chromatic scale used for octave calculation (audioEngine.ts:120):
the twelve note names from C to B in sharp spelling. -/
def NOTES : List String :=
  ["C", "C#", "D", "D#", "E", "F"] ++ ["F#", "G", "G#", "A", "A#", "B"]

/-- `Array.prototype.indexOf`: index of the first occurrence, `-1` if absent. -/
def jsIndexOf : List String → String → Int
  | [], _ => -1
  | x :: xs, s =>
      if x = s then 0
      else
        let r := jsIndexOf xs s
        if r = -1 then -1 else r + 1

/-- `note.match(/\d/)`: the note carries an explicit octave digit. -/
def hasDigitChar (s : String) : Bool := s.data.any Char.isDigit

/-- `rootNote.replace(/\d/, '')`: remove the first digit, if any. -/
def removeFirstDigit : List Char → List Char
  | [] => []
  | c :: cs => if c.isDigit then cs else c :: removeFirstDigit cs

def stripDigit (s : String) : String := ⟨removeFirstDigit s.data⟩

/-- The voicing step of `playChord` (audioEngine.ts:139-170): root in octave 3;
a later note goes to octave 4 when its chromatic index is below the root's or
more than 6 semitones above it; the 5th voiced note is forced to octave 4 and
the 6th and later to octave 5; a note already carrying a digit passes through. -/
def playChordVoicing (notes : List String) : List String :=
  let rootNote := notes.headD ""
  let rootIndex := jsIndexOf NOTES (stripDigit rootNote)
  notes.mapIdx fun i note =>
    if hasDigitChar note then note
    else
      if i = 0 then note ++ "3"
      else
        let noteIndex := jsIndexOf NOTES note
        let octave : Nat := if noteIndex < rootIndex ∨ noteIndex - rootIndex > 6 then 4 else 3
        let octave := if i ≥ 4 then 4 else octave
        let octave := if i ≥ 5 then 5 else octave
        note ++ toString octave

/-! ## The song store (`useSongStore.ts`)

The store operations named by the claims, acting on the `Song` value
(`currentSong`).  `uuidv4()` produces opaque fresh strings; each operation
that creates ids receives an explicit id supply. -/
def DEFAULT_TIME_SIGNATURE : ℚ × ℚ := (4, 4)

/-- `beatsFromSignature` (useSongStore.ts:67-71): `top * (4 / bottom)`, with a
fallback of 4 when either component is falsy (zero). -/
def beatsFromSignature (sig : ℚ × ℚ) : ℚ :=
  if sig.1 = 0 ∨ sig.2 = 0 then 4 else sig.1 * (4 / sig.2)

/-- `createEmptyMeasure` (useSongStore.ts:73-79): a single rest beat covering
the measure's whole beat total. -/
def createEmptyMeasure (mid bid : String) (sig : ℚ × ℚ) : Measure :=
  { id := mid, beats := [{ id := bid, chord := none, duration := beatsFromSignature sig }] }

/-- `section.timeSignature || song.timeSignature || DEFAULT_TIME_SIGNATURE`:
arrays are truthy, so the section's signature wins when present and the
song-level signature (always present) otherwise. -/
def sectionSignature (songSig : ℚ × ℚ) (sec : SongSection) : ℚ × ℚ :=
  sec.timeSignature.getD songSig

/-- `DEFAULT_SONG` (useSongStore.ts:116-142); uuid measure/beat ids are
opaque placeholders. -/
def DEFAULT_SONG : Song :=
  { id := "default", title := "Untitled Song", artist := "", key := "C", tempo := 120,
    timeSignature := (4, 4),
    sections := [
      { id := "verse-1", name := "Verse 1", kind := "verse",
        timeSignature := some DEFAULT_TIME_SIGNATURE,
        measures := [
          createEmptyMeasure "vm1" "vb1" DEFAULT_TIME_SIGNATURE,
          createEmptyMeasure "vm2" "vb2" DEFAULT_TIME_SIGNATURE,
          createEmptyMeasure "vm3" "vb3" DEFAULT_TIME_SIGNATURE,
          createEmptyMeasure "vm4" "vb4" DEFAULT_TIME_SIGNATURE] },
      { id := "chorus-1", name := "Chorus", kind := "chorus",
        timeSignature := some DEFAULT_TIME_SIGNATURE,
        measures := [
          createEmptyMeasure "cm1" "cb1" DEFAULT_TIME_SIGNATURE,
          createEmptyMeasure "cm2" "cb2" DEFAULT_TIME_SIGNATURE,
          createEmptyMeasure "cm3" "cb3" DEFAULT_TIME_SIGNATURE,
          createEmptyMeasure "cm4" "cb4" DEFAULT_TIME_SIGNATURE] }] }

/-- `newSong` (useSongStore.ts:256-287): a fresh default song (spread of
`DEFAULT_SONG` with new ids and two fresh 4-measure sections). -/
def newSongOp (ids : Nat → String) : Song :=
  { id := ids 0, title := "Untitled Song", artist := "", key := "C", tempo := 120,
    timeSignature := (4, 4),
    sections := [
      { id := ids 1, name := "Verse 1", kind := "verse",
        timeSignature := some DEFAULT_TIME_SIGNATURE,
        measures := (List.range 4).map fun k =>
          createEmptyMeasure (ids (2 + 2 * k)) (ids (3 + 2 * k)) DEFAULT_TIME_SIGNATURE },
      { id := ids 10, name := "Chorus", kind := "chorus",
        timeSignature := some DEFAULT_TIME_SIGNATURE,
        measures := (List.range 4).map fun k =>
          createEmptyMeasure (ids (11 + 2 * k)) (ids (12 + 2 * k)) DEFAULT_TIME_SIGNATURE }] }

/-- `type.charAt(0).toUpperCase() + type.slice(1)`. -/
def capitalize (s : String) : String :=
  match s.data with
  | [] => ""
  | c :: cs => ⟨c.toUpper :: cs⟩

/-- `addSection` (useSongStore.ts:289-303). -/
def addSectionOp (ids : Nat → String) (kind : String) (song : Song) : Song :=
  { song with sections := song.sections ++ [
      { id := ids 0, name := capitalize kind, kind := kind,
        timeSignature := some song.timeSignature,
        measures := (List.range 4).map fun k =>
          createEmptyMeasure (ids (1 + 2 * k)) (ids (2 + 2 * k)) song.timeSignature }] }

/-- `duplicateSection` (useSongStore.ts:319-345): copy the section with fresh
ids throughout, splice it right after the original. -/
def duplicateSectionOp (newSid : String) (mIds : Nat → String) (bIds : Nat → Nat → String)
    (sid : String) (song : Song) : Song :=
  match song.sections.find? (fun s => s.id == sid) with
  | none => song
  | some sec =>
      let newSection : SongSection :=
        { sec with
          id := newSid,
          name := sec.name ++ " (Copy)",
          timeSignature := some (sectionSignature song.timeSignature sec),
          measures := sec.measures.mapIdx fun k m =>
            { m with
              id := mIds k,
              beats := m.beats.mapIdx fun j b => { b with id := bIds k j } } }
      let index := song.sections.findIdx fun s => s.id == sid
      { song with sections :=
          song.sections.take (index + 1) ++ [newSection] ++ song.sections.drop (index + 1) }

/-- `setSectionMeasures` (useSongStore.ts:351-377): clamp the requested count
to `1..32` after rounding, then append fresh empty measures or truncate. -/
def setSectionMeasuresOp (ids : Nat → String) (sid : String) (count : ℚ) (song : Song) :
    Song :=
  let targetCount := (max 1 (min 32 (jsRound count))).toNat
  { song with sections := song.sections.map fun sec =>
      if sec.id = sid then
        let signature := sectionSignature song.timeSignature sec
        let ms := sec.measures
        let ms' :=
          if ms.length < targetCount then
            ms ++ (List.range (targetCount - ms.length)).map fun k =>
              createEmptyMeasure (ids (2 * k)) (ids (2 * k + 1)) signature
          else ms.take targetCount
        { sec with measures := ms' }
      else sec }

/-- `setSectionTimeSignature` (useSongStore.ts:379-408): set the section's
signature and reset every measure to a single rest beat covering the new
total. -/
def setSectionTimeSignatureOp (ids : Nat → String) (sid : String) (signature : ℚ × ℚ)
    (song : Song) : Song :=
  { song with sections := song.sections.map fun sec =>
      if sec.id = sid then
        { sec with
          timeSignature := some signature,
          measures := sec.measures.mapIdx fun k m =>
            { m with beats :=
                [{ id := ids k, chord := none, duration := beatsFromSignature signature }] } }
      else sec }

/-- `setMeasureSubdivision` (useSongStore.ts:410-444): clamp the step count to
`1..16` after rounding and re-cut the measure into that many equal beats,
keeping existing ids/chords positionally. -/
def setMeasureSubdivisionOp (ids : Nat → String) (sid mid : String) (steps : ℚ)
    (song : Song) : Song :=
  let targetSteps := (max 1 (min 16 (jsRound steps))).toNat
  { song with sections := song.sections.map fun sec =>
      if sec.id = sid then
        let totalBeats := beatsFromSignature (sectionSignature song.timeSignature sec)
        { sec with measures := sec.measures.map fun m =>
            if m.id = mid then
              let beatDuration := totalBeats / (targetSteps : ℚ)
              { m with beats := (List.range targetSteps).map fun idx =>
                  match m.beats[idx]? with
                  | some existing =>
                      { id := existing.id, chord := existing.chord, duration := beatDuration }
                  | none => { id := ids idx, chord := none, duration := beatDuration } }
            else m }
      else sec }

/-- `addChordToSlot` (useSongStore.ts:446-461). -/
def addChordToSlotOp (chord : Chord) (sid slotId : String) (song : Song) : Song :=
  { song with sections := song.sections.map fun sec =>
      if sec.id = sid then
        { sec with measures := sec.measures.map fun m =>
            { m with beats := m.beats.map fun b =>
                if b.id = slotId then { b with chord := some chord } else b } }
      else sec }

/-- `clearSlot` (useSongStore.ts:463-478). -/
def clearSlotOp (sid slotId : String) (song : Song) : Song :=
  { song with sections := song.sections.map fun sec =>
      if sec.id = sid then
        { sec with measures := sec.measures.map fun m =>
            { m with beats := m.beats.map fun b =>
                if b.id = slotId then { b with chord := none } else b } }
      else sec }

/-- The first pass of `moveChord` (useSongStore.ts:485-497): scan every beat,
remembering the chord of the (last) beat whose id matches. -/
def chordAtSlot (song : Song) (slotId : String) : Option Chord :=
  (allBeats song).foldl (fun acc b => if b.id = slotId then b.chord else acc) none

/-- `moveChord` (useSongStore.ts:480-525): look up both slots, bail out when
both hold no chord, otherwise swap the two chord values over every beat. -/
def moveChordOp (fromSectionId fromSlotId toSectionId toSlotId : String) (song : Song) :
    Song :=
  let sourceChord := chordAtSlot song fromSlotId
  let targetChord := chordAtSlot song toSlotId
  if sourceChord = none ∧ targetChord = none then song
  else
    { song with sections := song.sections.map fun sec =>
        { sec with measures := sec.measures.map fun m =>
            { m with beats := m.beats.map fun b =>
                if b.id = fromSlotId then { b with chord := targetChord }
                else if b.id = toSlotId then { b with chord := sourceChord }
                else b } } }

/-- The store operations claim C7 quantifies over, each creative operation
carrying its own id supply. -/
inductive SongOp where
  | newSong (ids : Nat → String)
  | addSection (kind : String) (ids : Nat → String)
  | duplicateSection (sid newSid : String) (mIds : Nat → String) (bIds : Nat → Nat → String)
  | setSectionMeasures (sid : String) (count : ℚ) (ids : Nat → String)
  | setSectionTimeSignature (sid : String) (signature : ℚ × ℚ) (ids : Nat → String)
  | setMeasureSubdivision (sid mid : String) (steps : ℚ) (ids : Nat → String)
  | addChordToSlot (chord : Chord) (sid slotId : String)
  | clearSlot (sid slotId : String)
  | moveChord (fromSectionId fromSlotId toSectionId toSlotId : String)

def applySongOp (song : Song) : SongOp → Song
  | .newSong ids => newSongOp ids
  | .addSection kind ids => addSectionOp ids kind song
  | .duplicateSection sid newSid mIds bIds => duplicateSectionOp newSid mIds bIds sid song
  | .setSectionMeasures sid count ids => setSectionMeasuresOp ids sid count song
  | .setSectionTimeSignature sid signature ids => setSectionTimeSignatureOp ids sid signature song
  | .setMeasureSubdivision sid mid steps ids => setMeasureSubdivisionOp ids sid mid steps song
  | .addChordToSlot chord sid slotId => addChordToSlotOp chord sid slotId song
  | .clearSlot sid slotId => clearSlotOp sid slotId song
  | .moveChord fs fSlot ts tSlot => moveChordOp fs fSlot ts tSlot song

def runSongOps (song : Song) (ops : List SongOp) : Song := ops.foldl applySongOp song

/-- The beat total of a measure: the sum of its beats' durations. -/
def measureDurationSum (m : Measure) : ℚ := (m.beats.map (·.duration)).sum

/-- Every measure's durations sum to the beat total of its governing time
signature (with `beatsFromSignature` as the code derives it). -/
def measureInvariant (song : Song) : Prop :=
  ∀ sec ∈ song.sections, ∀ m ∈ sec.measures,
    measureDurationSum m = beatsFromSignature (sectionSignature song.timeSignature sec)

/-- A two-beat song used to exercise `moveChord`: slot `b1` holds a C-major
chord and slot `b2` is empty. -/
def moveWitnessSong : Song :=
  { id := "w", title := "W", artist := "", key := "C", tempo := 120,
    timeSignature := (4, 4),
    sections := [
      { id := "s1", name := "S", kind := "verse", timeSignature := some (4, 4),
        measures := [
          { id := "m1", beats := [
            { id := "b1", chord := some cMajorChord, duration := 2 },
            { id := "b2", chord := none, duration := 2 }] }] }] }

theorem clampUnit_mem (s : ℚ) : -1 ≤ clampUnit s ∧ clampUnit s ≤ 1 := by
  unfold clampUnit
  constructor
  · exact le_max_left _ _
  · exact max_le (by norm_num) (min_le_left _ _)

theorem truncInt_scale_mem (s : ℚ) (h₁ : -1 ≤ s) (h₂ : s ≤ 1) :
    -32768 ≤ truncInt (scale16 s) ∧ truncInt (scale16 s) ≤ 32767 := by
  unfold truncInt scale16
  by_cases hs : s < 0
  · rw [if_pos hs]
    have hlt : s * 32768 < 0 := mul_neg_of_neg_of_pos hs (by norm_num)
    rw [if_pos hlt]
    constructor
    · have hge : (-32768 : ℚ) ≤ s * 32768 := by nlinarith
      have := Int.ceil_le_ceil hge
      simpa using this
    · have hceil : (⌈s * 32768⌉ : ℚ) < s * 32768 + 1 := Int.ceil_lt_add_one _
      have h1 : (⌈s * 32768⌉ : ℚ) < 1 := by linarith
      have h2 : ⌈s * 32768⌉ < 1 := by exact_mod_cast h1
      omega
  · rw [if_neg hs]
    push_neg at hs
    have hnn : ¬ s * 32767 < 0 := not_lt.mpr (mul_nonneg hs (by norm_num))
    rw [if_neg hnn]
    constructor
    · have h0 : (0 : Int) ≤ ⌊s * 32767⌋ := Int.floor_nonneg.mpr (by positivity)
      omega
    · have hle : (s * 32767 : ℚ) ≤ 32767 := by nlinarith
      have := Int.floor_le_floor hle
      simpa using this

theorem toInt16_eq_self (x : Int) (h₁ : -32768 ≤ x) (h₂ : x ≤ 32767) :
    toInt16 x = x := by
  unfold toInt16
  omega

theorem quantizeSample_in_range (s : ℚ) :
    -32768 ≤ quantizeSample s ∧ quantizeSample s ≤ 32767 := by
  have hm := clampUnit_mem s
  have ht := truncInt_scale_mem _ hm.1 hm.2
  unfold quantizeSample
  rw [toInt16_eq_self _ ht.1 ht.2]
  exact ht

/-- **C5.** Quantization to 16-bit signed integers first hard-clamps
the value to `[-1, 1]` and then scales it (negatives by `32768`, non-negatives
by `32767`); every output sample lies in `[-32768, 32767]`; an out-of-range
input is clamped to the nearest representable extreme, and the `Int16Array`
store never wraps the value around. -/
theorem quantizeSample_clamps_no_wraparound (s : ℚ) :
    quantizeSample s = truncInt (scale16 (clampUnit s)) ∧
    (-32768 ≤ quantizeSample s ∧ quantizeSample s ≤ 32767) ∧
    (1 < s → quantizeSample s = 32767) ∧
    (s < -1 → quantizeSample s = -32768) := by
  have hm := clampUnit_mem s
  have ht := truncInt_scale_mem _ hm.1 hm.2
  refine ⟨?_, quantizeSample_in_range s, ?_, ?_⟩
  · unfold quantizeSample
    rw [toInt16_eq_self _ ht.1 ht.2]
  · intro h
    have hc : clampUnit s = 1 := by
      unfold clampUnit
      rw [min_eq_left (le_of_lt h)]
      norm_num
    unfold quantizeSample
    rw [hc]
    unfold scale16 truncInt toInt16
    norm_num
  · intro h
    have hc : clampUnit s = -1 := by
      unfold clampUnit
      rw [min_eq_right (by linarith : s ≤ 1), max_eq_left (le_of_lt h)]
    have hval : truncInt (scale16 (-1)) = -32768 := by
      unfold scale16 truncInt
      rw [if_pos (by norm_num : (-1 : ℚ) < 0),
        if_pos (by norm_num : (-1 : ℚ) * 32768 < 0),
        show ((-1 : ℚ) * 32768) = ((-32768 : Int) : ℚ) by norm_num, Int.ceil_intCast]
    unfold quantizeSample
    rw [hc, hval]
    unfold toInt16
    decide

/-- Witness for C5: the quantizer at the out-of-range inputs `2` and `-2`. -/
theorem quantizeSample_clamps_no_wraparound_witness :
    quantizeSample 2 = 32767 ∧ quantizeSample (-2) = -32768 :=
  ⟨(quantizeSample_clamps_no_wraparound 2).2.2.1 (by norm_num),
   (quantizeSample_clamps_no_wraparound (-2)).2.2.2 (by norm_num)⟩

theorem le16_length (v : Nat) : (le16 v).length = 2 := rfl

theorem le32_length (v : Nat) : (le32 v).length = 4 := rfl

theorem set_append_length (a c : List Nat) (b : Nat) :
    (a ++ c).set a.length b = a ++ c.set 0 b := by
  induction a with
  | nil => simp
  | cons x xs ih => simp [List.set, ih]

theorem writeBytes_fill (bs : List Nat) : ∀ a c : List Nat, bs.length ≤ c.length →
    writeBytes (a ++ c) a.length bs = (a ++ bs) ++ c.drop bs.length := by
  induction bs with
  | nil => intro a c _; simp [writeBytes]
  | cons b bs ih =>
    intro a c hlen
    cases c with
    | nil => simp at hlen
    | cons c0 cs =>
      simp only [writeBytes]
      rw [set_append_length]
      have h1 : (c0 :: cs).set 0 b = b :: cs := rfl
      rw [h1, show a ++ b :: cs = (a ++ [b]) ++ cs by simp,
        show a.length + 1 = (a ++ [b]).length by simp,
        ih (a ++ [b]) cs (by simpa using hlen)]
      simp

theorem writeBytes_replicate (a bs : List Nat) (m : Nat) (h : bs.length ≤ m) :
    writeBytes (a ++ List.replicate m 0) a.length bs =
      (a ++ bs) ++ List.replicate (m - bs.length) 0 := by
  rw [writeBytes_fill bs a _ (by simpa using h), List.drop_replicate]

theorem writeSamples_fill (ss : List Int) : ∀ a : List Nat,
    writeSamples (a ++ List.replicate (ss.length * 2) 0) a.length ss =
      a ++ ss.flatMap fun s => le16 (u16ofInt s) := by
  induction ss with
  | nil => intro a; simp [writeSamples]
  | cons s ss ih =>
    intro a
    simp only [writeSamples]
    rw [show (s :: ss).length * 2 = 2 + ss.length * 2 by simp [List.length_cons]; omega]
    rw [writeBytes_replicate a (le16 (u16ofInt s)) (2 + ss.length * 2) (by simp [le16])]
    rw [show (2 + ss.length * 2) - (le16 (u16ofInt s)).length = ss.length * 2
        by simp [le16_length]]
    rw [show a.length + 2 = (a ++ le16 (u16ofInt s)).length by simp [le16_length],
      ih (a ++ le16 (u16ofInt s))]
    simp

theorem flatMap_le16_length (ss : List Int) :
    (ss.flatMap fun s => le16 (u16ofInt s)).length = ss.length * 2 := by
  induction ss with
  | nil => simp
  | cons s ss ih => simp [List.flatMap_cons, ih, le16_length]; ring

theorem strBytes_RIFF_length : (strBytes "RIFF").length = 4 := rfl

theorem strBytes_WAVE_length : (strBytes "WAVE").length = 4 := rfl

theorem strBytes_fmt_length : (strBytes "fmt ").length = 4 := rfl

theorem strBytes_data_length : (strBytes "data").length = 4 := rfl

theorem writeBytes_step (a bs buf : List Nat) (off m m' : Nat)
    (hbuf : buf = a ++ List.replicate m 0) (hoff : off = a.length)
    (hm : m = bs.length + m') :
    writeBytes buf off bs = (a ++ bs) ++ List.replicate m' 0 := by
  subst hbuf hoff hm
  rw [writeBytes_replicate a bs _ (by omega)]
  congr 1
  congr 1
  omega

theorem writeSamples_step (a buf : List Nat) (off : Nat) (ss : List Int)
    (hbuf : buf = a ++ List.replicate (ss.length * 2) 0) (hoff : off = a.length) :
    writeSamples buf off ss = a ++ ss.flatMap fun s => le16 (u16ofInt s) := by
  subst hbuf hoff
  exact writeSamples_fill ss a

theorem audioBufferToWav_eq (nc sr len : Nat) (data : Nat → Nat → ℚ) :
    audioBufferToWav nc sr len data =
      wavHeaderBytes nc sr (((interleavedSamples nc len data).map quantizeSample).length * 2) ++
        ((interleavedSamples nc len data).map quantizeSample).flatMap
          fun s => le16 (u16ofInt s) := by
  simp only [audioBufferToWav]
  generalize (interleavedSamples nc len data).map quantizeSample = samples
  rw [writeBytes_step [] (strBytes "RIFF") _ 0 (44 + samples.length * 2)
    (40 + samples.length * 2) (by simp) rfl (by rw [strBytes_RIFF_length]; omega)]
  rw [writeBytes_step ([] ++ strBytes "RIFF") (le32 (36 + samples.length * 2)) _ 4
    (40 + samples.length * 2) (36 + samples.length * 2) rfl
    (by simp [strBytes_RIFF_length]) (by rw [le32_length]; omega)]
  rw [writeBytes_step (([] ++ strBytes "RIFF") ++ le32 (36 + samples.length * 2))
    (strBytes "WAVE") _ 8 (36 + samples.length * 2) (32 + samples.length * 2) rfl
    (by simp [strBytes_RIFF_length, le32_length]) (by rw [strBytes_WAVE_length]; omega)]
  rw [writeBytes_step ((([] ++ strBytes "RIFF") ++ le32 (36 + samples.length * 2)) ++
      strBytes "WAVE")
    (strBytes "fmt ") _ 12 (32 + samples.length * 2) (28 + samples.length * 2) rfl
    (by simp [strBytes_RIFF_length, le32_length, strBytes_WAVE_length])
    (by rw [strBytes_fmt_length]; omega)]
  rw [writeBytes_step (((([] ++ strBytes "RIFF") ++ le32 (36 + samples.length * 2)) ++
      strBytes "WAVE") ++ strBytes "fmt ")
    (le32 16) _ 16 (28 + samples.length * 2) (24 + samples.length * 2) rfl
    (by simp [strBytes_RIFF_length, le32_length, strBytes_WAVE_length, strBytes_fmt_length])
    (by rw [le32_length]; omega)]
  rw [writeBytes_step ((((([] ++ strBytes "RIFF") ++ le32 (36 + samples.length * 2)) ++
      strBytes "WAVE") ++ strBytes "fmt ") ++ le32 16)
    (le16 1) _ 20 (24 + samples.length * 2) (22 + samples.length * 2) rfl
    (by simp [strBytes_RIFF_length, le32_length, strBytes_WAVE_length, strBytes_fmt_length])
    (by rw [le16_length]; omega)]
  rw [writeBytes_step (((((([] ++ strBytes "RIFF") ++ le32 (36 + samples.length * 2)) ++
      strBytes "WAVE") ++ strBytes "fmt ") ++ le32 16) ++ le16 1)
    (le16 nc) _ 22 (22 + samples.length * 2) (20 + samples.length * 2) rfl
    (by simp [strBytes_RIFF_length, le32_length, strBytes_WAVE_length, strBytes_fmt_length,
      le16_length])
    (by rw [le16_length]; omega)]
  rw [writeBytes_step ((((((([] ++ strBytes "RIFF") ++ le32 (36 + samples.length * 2)) ++
      strBytes "WAVE") ++ strBytes "fmt ") ++ le32 16) ++ le16 1) ++ le16 nc)
    (le32 sr) _ 24 (20 + samples.length * 2) (16 + samples.length * 2) rfl
    (by simp [strBytes_RIFF_length, le32_length, strBytes_WAVE_length, strBytes_fmt_length,
      le16_length])
    (by rw [le32_length]; omega)]
  rw [writeBytes_step (((((((([] ++ strBytes "RIFF") ++ le32 (36 + samples.length * 2)) ++
      strBytes "WAVE") ++ strBytes "fmt ") ++ le32 16) ++ le16 1) ++ le16 nc) ++ le32 sr)
    (le32 (sr * nc * 2)) _ 28 (16 + samples.length * 2) (12 + samples.length * 2) rfl
    (by simp [strBytes_RIFF_length, le32_length, strBytes_WAVE_length, strBytes_fmt_length,
      le16_length])
    (by rw [le32_length]; omega)]
  rw [writeBytes_step ((((((((([] ++ strBytes "RIFF") ++ le32 (36 + samples.length * 2)) ++
      strBytes "WAVE") ++ strBytes "fmt ") ++ le32 16) ++ le16 1) ++ le16 nc) ++ le32 sr) ++
      le32 (sr * nc * 2))
    (le16 (nc * 2)) _ 32 (12 + samples.length * 2) (10 + samples.length * 2) rfl
    (by simp [strBytes_RIFF_length, le32_length, strBytes_WAVE_length, strBytes_fmt_length,
      le16_length])
    (by rw [le16_length]; omega)]
  rw [writeBytes_step (((((((((([] ++ strBytes "RIFF") ++ le32 (36 + samples.length * 2)) ++
      strBytes "WAVE") ++ strBytes "fmt ") ++ le32 16) ++ le16 1) ++ le16 nc) ++ le32 sr) ++
      le32 (sr * nc * 2)) ++ le16 (nc * 2))
    (le16 16) _ 34 (10 + samples.length * 2) (8 + samples.length * 2) rfl
    (by simp [strBytes_RIFF_length, le32_length, strBytes_WAVE_length, strBytes_fmt_length,
      le16_length])
    (by rw [le16_length]; omega)]
  rw [writeBytes_step ((((((((((([] ++ strBytes "RIFF") ++ le32 (36 + samples.length * 2)) ++
      strBytes "WAVE") ++ strBytes "fmt ") ++ le32 16) ++ le16 1) ++ le16 nc) ++ le32 sr) ++
      le32 (sr * nc * 2)) ++ le16 (nc * 2)) ++ le16 16)
    (strBytes "data") _ 36 (8 + samples.length * 2) (4 + samples.length * 2) rfl
    (by simp [strBytes_RIFF_length, le32_length, strBytes_WAVE_length, strBytes_fmt_length,
      le16_length])
    (by rw [strBytes_data_length]; omega)]
  rw [writeBytes_step (((((((((((([] ++ strBytes "RIFF") ++ le32 (36 + samples.length * 2)) ++
      strBytes "WAVE") ++ strBytes "fmt ") ++ le32 16) ++ le16 1) ++ le16 nc) ++ le32 sr) ++
      le32 (sr * nc * 2)) ++ le16 (nc * 2)) ++ le16 16) ++ strBytes "data")
    (le32 (samples.length * 2)) _ 40 (4 + samples.length * 2) (samples.length * 2) rfl
    (by simp [strBytes_RIFF_length, le32_length, strBytes_WAVE_length, strBytes_fmt_length,
      le16_length, strBytes_data_length])
    (by rw [le32_length])]
  rw [writeSamples_step ((((((((((((([] ++ strBytes "RIFF") ++
      le32 (36 + samples.length * 2)) ++
      strBytes "WAVE") ++ strBytes "fmt ") ++ le32 16) ++ le16 1) ++ le16 nc) ++ le32 sr) ++
      le32 (sr * nc * 2)) ++ le16 (nc * 2)) ++ le16 16) ++ strBytes "data") ++
      le32 (samples.length * 2)) _ 44 samples rfl
    (by simp [strBytes_RIFF_length, le32_length, strBytes_WAVE_length, strBytes_fmt_length,
      le16_length, strBytes_data_length])]
  simp [wavHeaderBytes, List.append_assoc]

/-- **C1.** The output of `audioBufferToWav` is exactly the 44-byte header —
ASCII `RIFF`, little-endian `36 +` payload byte length, `WAVE`, a `fmt `
subchunk of size 16 with PCM format code 1, the buffer's channel count, its
sample rate, byte rate `sampleRate × channels × 2`, block align
`channels × 2`, 16 bits per sample, and a `data` subchunk declaring exactly
the payload byte length — followed by the little-endian 16-bit interleaved
samples. -/
theorem audioBufferToWav_riff_layout (nc sr len : Nat) (data : Nat → Nat → ℚ) :
    audioBufferToWav nc sr len data =
      wavHeaderBytes nc sr (len * nc * 2) ++
        ((interleavedSamples nc len data).map quantizeSample).flatMap
          (fun s => le16 (u16ofInt s)) ∧
    (wavHeaderBytes nc sr (len * nc * 2)).length = 44 ∧
    (((interleavedSamples nc len data).map quantizeSample).flatMap
        fun s => le16 (u16ofInt s)).length = len * nc * 2 := by
  have hlen : ((interleavedSamples nc len data).map quantizeSample).length = len * nc := by
    simp [interleavedSamples]
  refine ⟨?_, ?_, ?_⟩
  · rw [audioBufferToWav_eq, hlen]
  · simp [wavHeaderBytes, le16_length, le32_length, strBytes_RIFF_length,
      strBytes_WAVE_length, strBytes_fmt_length, strBytes_data_length]
  · rw [flatMap_le16_length, hlen]

theorem foldl_add_duration (l : List Beat) : ∀ init : ℚ,
    l.foldl (fun acc b => acc + b.duration) init = init + (l.map (·.duration)).sum := by
  induction l with
  | nil => intro init; simp
  | cons b l ih => intro init; simp [List.foldl_cons, ih]; ring

/-- **C2.** The offline render's total duration is the sum of all beat
durations times `60 / tempo` plus a fixed 2-second tail; for the reference
song (4 quarter-note beats at tempo 120, 44100 Hz, 2 channels) the render is
176400 frames and the exported file's `data` chunk declares exactly
`(4 × 0.5 + 2) × 44100 × 2 × 2 = 705600` bytes. -/
theorem exportAudio_duration_and_data_length :
    (∀ song : Song, calculateSongDuration song =
      ((allBeats song).map (·.duration)).sum * (60 / song.tempo) + 2) ∧
    calculateSongDuration refSong = 4 ∧
    renderFrames (calculateSongDuration refSong) 44100 = 176400 ∧
    ((705600 : ℚ) = (4 * (1 / 2) + 2) * 44100 * 2 * 2) ∧
    ∀ data : Nat → Nat → ℚ,
      ((exportSongAsAudioBytes refSong 44100 data).drop 40).take 4 = le32 705600 := by
  have hdur : calculateSongDuration refSong = 4 := by
    unfold calculateSongDuration allBeats refSong
    norm_num [List.foldl_cons]
  have hframes : renderFrames (calculateSongDuration refSong) 44100 = 176400 := by
    rw [hdur]
    unfold renderFrames
    norm_num
    decide
  refine ⟨?_, hdur, hframes, by norm_num, ?_⟩
  · intro song
    unfold calculateSongDuration
    rw [foldl_add_duration]
    ring
  · intro data
    unfold exportSongAsAudioBytes
    rw [hframes, audioBufferToWav_eq]
    have hlen : ((interleavedSamples 2 176400 data).map quantizeSample).length = 352800 := by
      simp [interleavedSamples]
    rw [hlen]
    rw [List.drop_append_eq_append_drop]
    have h44 : (wavHeaderBytes 2 44100 (352800 * 2)).length = 44 := by decide
    rw [h44]
    norm_num
    rw [List.take_append_eq_append_take]
    have hdrop : (wavHeaderBytes 2 44100 (352800 * 2)).drop 40 = le32 705600 := by decide
    rw [hdrop]
    simp [le32_length]

/-- Counterexample for C8 as stated: the failure raised when the offline
render produces no usable buffer is the bare untyped
`Error('Failed to get audio buffer')` — the code defines no
`RenderBufferUnavailable` (or any other) error kind. -/
theorem audioBufferToWav_error_is_bare :
    audioBufferToWavChecked none =
      Except.error { message := "Failed to get audio buffer" } := rfl

/-- **C8 (amended).** When the offline render produces no usable buffer, the
export fails by throwing a plain `Error` whose message is
`'Failed to get audio buffer'`; the error propagates to the caller and no
partial output (no `Blob` bytes) is produced.  The failure is a bare untyped
`Error`, not a typed `RenderBufferUnavailable` kind. -/
theorem audioBufferToWav_no_buffer_no_output :
    (∃ e : JsError, audioBufferToWavChecked none = Except.error e ∧
      e.message = "Failed to get audio buffer") ∧
    ∀ out : List Nat, audioBufferToWavChecked none ≠ Except.ok out := by
  refine ⟨⟨{ message := "Failed to get audio buffer" }, rfl, rfl⟩, ?_⟩
  intro out h
  simp [audioBufferToWavChecked] at h

theorem ticksBefore_zero (bs : List Beat) : ticksBefore bs 0 = 0 := by
  simp [ticksBefore]

theorem ticksBefore_cons (b : Beat) (bs : List Beat) (i : Nat) :
    ticksBefore (b :: bs) (i + 1) = durationToTicks b.duration + ticksBefore bs i := by
  simp [ticksBefore]

theorem midiFold_fst (bs : List Beat) : ∀ (t0 : Int) (acc : List NoteEvent),
    (bs.foldl midiStep (t0, acc)).1 = t0 + ticksBefore bs bs.length := by
  induction bs with
  | nil => intro t0 acc; simp [ticksBefore]
  | cons b bs ih =>
    intro t0 acc
    simp only [List.foldl_cons]
    rw [show (List.foldl midiStep (midiStep (t0, acc) b) bs) =
        (List.foldl midiStep ((midiStep (t0, acc) b).1, (midiStep (t0, acc) b).2) bs) by rfl]
    rw [ih]
    simp only [List.length_cons]
    rw [ticksBefore_cons]
    simp [midiStep]
    ring

theorem midiFold_snd (bs : List Beat) : ∀ (t0 : Int) (acc : List NoteEvent),
    (bs.foldl midiStep (t0, acc)).2 =
      acc ++ ((List.range bs.length).filterMap fun i =>
        match bs.get? i with
        | some b =>
            match b.chord with
            | some c =>
                if c.notes.length > 0 then
                  some { pitch := c.notes.map noteToMidiPitch,
                         durationTicks := durationToTicks b.duration,
                         startTick := t0 + ticksBefore bs i }
                else none
            | none => none
        | none => none) := by
  induction bs with
  | nil => intro t0 acc; simp
  | cons b bs ih =>
    intro t0 acc
    simp only [List.foldl_cons]
    rw [show (List.foldl midiStep (midiStep (t0, acc) b) bs) =
        (List.foldl midiStep ((midiStep (t0, acc) b).1, (midiStep (t0, acc) b).2) bs) by rfl]
    rw [ih]
    simp only [List.length_cons]
    rw [List.range_succ_eq_map, List.filterMap_cons, List.filterMap_map]
    simp only [List.get?_cons_zero, ticksBefore_zero, add_zero]
    have hcomp : ∀ i : Nat,
        (match (b :: bs).get? (Nat.succ i) with
          | some b' =>
              match b'.chord with
              | some c =>
                  if c.notes.length > 0 then
                    some ({ pitch := c.notes.map noteToMidiPitch,
                            durationTicks := durationToTicks b'.duration,
                            startTick := t0 + ticksBefore (b :: bs) (Nat.succ i) } : NoteEvent)
                  else none
              | none => none
          | none => none) =
        (match bs.get? i with
          | some b' =>
              match b'.chord with
              | some c =>
                  if c.notes.length > 0 then
                    some ({ pitch := c.notes.map noteToMidiPitch,
                            durationTicks := durationToTicks b'.duration,
                            startTick := (t0 + durationToTicks b.duration) + ticksBefore bs i } :
                      NoteEvent)
                  else none
              | none => none
          | none => none) := by
      intro i
      rw [List.get?_cons_succ, ticksBefore_cons]
      rcases bs.get? i with _ | b' <;> simp
      rcases b'.chord with _ | c <;> simp
      ring_nf
    simp only [Function.comp_def]
    rw [List.filterMap_congr fun i _ => hcomp i]
    rcases hb : b.chord with _ | c
    · simp [midiStep, hb]
    · simp only [midiStep, hb]
      by_cases hn : c.notes.length > 0
      · simp [hn]
      · simp [hn]

/-- **C6.** The exported MIDI note sequence contains, in timeline order,
exactly one simultaneous note-on event group per beat whose chord is non-null
with non-empty notes, starting at the accumulated tick position with duration
`round(durationBeats × 128)` ticks; beats whose chord is null advance the
tick cursor by their duration without emitting events (the final cursor is
the tick total of all beats, rests included). -/
theorem exportMidi_note_events (song : Song) :
    exportSongNoteEvents song = midiEventsSpec song ∧
    midiTickCursor song = ticksBefore (allBeats song) (allBeats song).length := by
  constructor
  · unfold exportSongNoteEvents midiEventsSpec
    rw [midiFold_snd]
    simp
  · unfold midiTickCursor
    rw [midiFold_fst]
    simp

/-- Counterexample for C3 as stated: for the key at wheel position `0`, the
claim puts `ii` at the minor slot of position `(0-1) mod 12 = 11` and `vi` at
position `0`; the code labels the position-11 minor slot with no numeral at
all and puts no `vi` anywhere at position `0`. -/
theorem diatonic_positions_counterexample :
    getRomanNumeral 0 11 SlotType.ii ≠ "ii" ∧
    ∀ t : SlotType, getRomanNumeral 0 0 t ≠ "vi" := by decide

/-- **C3 (amended).** For every key at wheel position `k`: the numerals I and
vii° sit at position `k`, with ii and iii as the two minor-ring slots also at
position `k`; IV sits at position `(k-1) mod 12`; V at `(k+1) mod 12`; and vi
is the minor-ring (`'ii'`) slot of position `(k+1) mod 12`.  The diatonic
highlight flags agree with exactly those positions. -/
theorem diatonic_positions (k p : Fin 12) :
    (getRomanNumeral k.val p.val .major = "I" ↔ p.val = k.val) ∧
    (getRomanNumeral k.val p.val .major = "V" ↔ p.val = (k.val + 1) % 12) ∧
    (getRomanNumeral k.val p.val .major = "IV" ↔ p.val = (k.val + 11) % 12) ∧
    (getRomanNumeral k.val p.val .ii = "ii" ↔ p.val = k.val) ∧
    (getRomanNumeral k.val p.val .ii = "vi" ↔ p.val = (k.val + 1) % 12) ∧
    (getRomanNumeral k.val p.val .iii = "iii" ↔ p.val = k.val) ∧
    (getRomanNumeral k.val p.val .dim = "vii°" ↔ p.val = k.val) ∧
    (isPositionDiatonic k.val p.val .major = true ↔
      (p.val = k.val ∨ p.val = (k.val + 1) % 12 ∨ p.val = (k.val + 11) % 12)) ∧
    ((isPositionDiatonic k.val p.val .ii || isViPosition k.val p.val) = true ↔
      (p.val = k.val ∨ p.val = (k.val + 1) % 12)) ∧
    (isPositionDiatonic k.val p.val .iii = true ↔ p.val = k.val) ∧
    (isPositionDiatonic k.val p.val .dim = true ↔ p.val = k.val) := by
  revert k p
  decide

/-- Counterexample for C4 as stated: in `["C", "E", "A"]` the note `A`
(chromatic index 9) is not behind the root `C` in ascending pitch-class
order, so the claim places it in the base octave (`"A3"`); the code raises
any note more than 6 semitones above the root, producing `"A4"`. -/
theorem playChord_voicing_counterexample :
    playChordVoicing ["C", "E", "A"] = ["C3", "E3", "A4"] ∧
    playChordVoicing ["C", "E", "A"] ≠ ["C3", "E3", "A3"] := by decide

/-- **C4 (amended).** For a non-empty note list: a note with an explicit
octave digit passes through unchanged; the root is placed in base octave 3;
each subsequent note among the first four is placed in the base octave unless
its pitch class is behind the root in ascending pitch-class order **or more
than 6 semitones above it**, in which case it is placed one octave higher;
the 5th voiced note goes to octave 4 and the 6th and later to octave 5. -/
theorem playChord_voicing_octaves (notes : List String) (hne : notes ≠ []) :
    (playChordVoicing notes).length = notes.length ∧
    ∀ (i : Nat) (note : String), notes[i]? = some note →
      (hasDigitChar note = true → (playChordVoicing notes)[i]? = some note) ∧
      (hasDigitChar note = false →
        (i = 0 → (playChordVoicing notes)[i]? = some (note ++ "3")) ∧
        (1 ≤ i → i ≤ 3 → (playChordVoicing notes)[i]? = some (note ++
          (if jsIndexOf NOTES note < jsIndexOf NOTES (stripDigit (notes.headD "")) ∨
              jsIndexOf NOTES note - jsIndexOf NOTES (stripDigit (notes.headD "")) > 6
            then "4" else "3"))) ∧
        (i = 4 → (playChordVoicing notes)[i]? = some (note ++ "4")) ∧
        (5 ≤ i → (playChordVoicing notes)[i]? = some (note ++ "5"))) := by
  constructor
  · simp [playChordVoicing, List.length_mapIdx]
  · intro i note hnote
    have hv : (playChordVoicing notes)[i]? = some (
        if hasDigitChar note then note
        else
          if i = 0 then note ++ "3"
          else
            let noteIndex := jsIndexOf NOTES note
            let rootIndex := jsIndexOf NOTES (stripDigit (notes.headD ""))
            let octave : Nat :=
              if noteIndex < rootIndex ∨ noteIndex - rootIndex > 6 then 4 else 3
            let octave := if i ≥ 4 then 4 else octave
            let octave := if i ≥ 5 then 5 else octave
            note ++ toString octave) := by
      simp only [playChordVoicing, List.getElem?_mapIdx, hnote]
      rfl
    constructor
    · intro hd
      rw [hv, if_pos hd]
    · intro hd
      refine ⟨?_, ?_, ?_, ?_⟩
      · intro h0
        subst h0
        rw [hv]
        simp [hd]
      · intro h1 h3
        rw [hv]
        rw [if_neg (by simp [hd]), if_neg (by omega)]
        simp only
        rw [if_neg (by omega : ¬ i ≥ 5), if_neg (by omega : ¬ i ≥ 4)]
        by_cases hb : jsIndexOf NOTES note < jsIndexOf NOTES (stripDigit (notes.headD "")) ∨
            jsIndexOf NOTES note - jsIndexOf NOTES (stripDigit (notes.headD "")) > 6
        · rw [if_pos hb, if_pos hb]
          rfl
        · rw [if_neg hb, if_neg hb]
          rfl
      · intro h4
        subst h4
        rw [hv]
        rw [if_neg (by simp [hd]), if_neg (by omega)]
        simp only
        rw [if_neg (by omega : ¬ (4 : Nat) ≥ 5), if_pos (by omega : (4 : Nat) ≥ 4)]
        rfl
      · intro h5
        rw [hv]
        rw [if_neg (by simp [hd]), if_neg (by omega)]
        simp only
        rw [if_pos (by omega : i ≥ 5)]
        rfl

/-- Witness for C4: the third of a C-major triad without explicit octave is
voiced in the base octave 3. -/
theorem playChord_voicing_octaves_witness :
    (playChordVoicing ["C", "E", "G"])[1]? = some "E3" := by
  have h := (playChord_voicing_octaves ["C", "E", "G"] (by decide)).2 1 "E" (by decide)
  have h2 := (h.2 (by decide)).2.1 (by decide) (by decide)
  exact h2.trans (by decide)

theorem measureDurationSum_createEmptyMeasure (mid bid : String) (sig : ℚ × ℚ) :
    measureDurationSum (createEmptyMeasure mid bid sig) = beatsFromSignature sig := by
  simp [measureDurationSum, createEmptyMeasure]

theorem map_duration_mapIdx : ∀ (l : List Beat) (f : Nat → Beat → Beat),
    (∀ i b, (f i b).duration = b.duration) →
    (l.mapIdx f).map (·.duration) = l.map (·.duration)
  | [], _, _ => by simp
  | b :: l, f, hf => by
      rw [List.mapIdx_cons, List.map_cons, List.map_cons, hf,
        map_duration_mapIdx l (fun i => f (i + 1)) (fun i b => hf (i + 1) b)]

theorem measureDurationSum_mapBeats (m : Measure) (g : Beat → Beat)
    (hg : ∀ b, (g b).duration = b.duration) :
    measureDurationSum { m with beats := m.beats.map g } = measureDurationSum m := by
  unfold measureDurationSum
  simp only [List.map_map]
  congr 1
  exact List.map_congr_left fun b _ => hg b

theorem measureInvariant_default : measureInvariant DEFAULT_SONG := by
  intro sec hsec m hm
  fin_cases hsec <;> fin_cases hm <;>
    simp [measureDurationSum_createEmptyMeasure, sectionSignature]

theorem measureInvariant_newSongOp (ids : Nat → String) :
    measureInvariant (newSongOp ids) := by
  intro sec hsec m hm
  simp only [newSongOp, List.mem_cons, List.not_mem_nil, or_false] at hsec
  rcases hsec with rfl | rfl <;>
  · simp only [List.mem_map, List.mem_range] at hm
    obtain ⟨k, _, rfl⟩ := hm
    simp [measureDurationSum_createEmptyMeasure, sectionSignature]

theorem measureInvariant_addSectionOp (ids : Nat → String) (kind : String) (song : Song)
    (h : measureInvariant song) : measureInvariant (addSectionOp ids kind song) := by
  intro sec hsec m hm
  simp only [addSectionOp, List.mem_append, List.mem_cons, List.not_mem_nil, or_false]
    at hsec
  rcases hsec with hsec | rfl
  · exact h sec hsec m hm
  · simp only [List.mem_map, List.mem_range] at hm
    obtain ⟨k, _, rfl⟩ := hm
    simp [measureDurationSum_createEmptyMeasure, sectionSignature]

theorem measureInvariant_duplicateSectionOp (newSid : String) (mIds : Nat → String)
    (bIds : Nat → Nat → String) (sid : String) (song : Song)
    (h : measureInvariant song) :
    measureInvariant (duplicateSectionOp newSid mIds bIds sid song) := by
  unfold duplicateSectionOp
  split
  · exact h
  · next sec hfind =>
    intro sec' hsec' m hm
    simp only [List.mem_append, List.mem_cons, List.not_mem_nil, or_false] at hsec'
    rcases hsec' with (hsec' | rfl) | hsec'
    · exact h sec' (List.mem_of_mem_take hsec') m hm
    · rw [List.mem_mapIdx] at hm
      obtain ⟨k, hk, rfl⟩ := hm
      have hsec : sec ∈ song.sections := List.mem_of_find?_eq_some hfind
      have hold := h sec hsec _ (sec.measures.getElem_mem hk)
      have hsum : measureDurationSum
          { sec.measures[k] with
            id := mIds k,
            beats := (sec.measures[k]).beats.mapIdx fun j b => { b with id := bIds k j } } =
          measureDurationSum sec.measures[k] := by
        unfold measureDurationSum
        exact congrArg _ (map_duration_mapIdx _ _ fun _ _ => rfl)
      rw [hsum, hold]
      simp [sectionSignature]
    · exact h sec' (List.mem_of_mem_drop hsec') m hm

theorem measureInvariant_setSectionMeasuresOp (ids : Nat → String) (sid : String)
    (count : ℚ) (song : Song) (h : measureInvariant song) :
    measureInvariant (setSectionMeasuresOp ids sid count song) := by
  intro sec' hsec' m hm
  simp only [setSectionMeasuresOp, List.mem_map] at hsec'
  obtain ⟨sec, hsec, rfl⟩ := hsec'
  by_cases hid : sec.id = sid
  · rw [if_pos hid] at hm ⊢
    by_cases hlen : sec.measures.length < (max 1 (min 32 (jsRound count))).toNat
    · rw [if_pos hlen] at hm
      simp only [List.mem_append, List.mem_map, List.mem_range] at hm
      rcases hm with hm | ⟨k, _, rfl⟩
      · exact h sec hsec m hm
      · rw [measureDurationSum_createEmptyMeasure]
        simp [sectionSignature, setSectionMeasuresOp]
    · rw [if_neg hlen] at hm
      exact h sec hsec m (List.mem_of_mem_take hm)
  · rw [if_neg hid] at hm ⊢
    exact h sec hsec m hm

theorem measureInvariant_setSectionTimeSignatureOp (ids : Nat → String) (sid : String)
    (signature : ℚ × ℚ) (song : Song) (h : measureInvariant song) :
    measureInvariant (setSectionTimeSignatureOp ids sid signature song) := by
  intro sec' hsec' m hm
  simp only [setSectionTimeSignatureOp, List.mem_map] at hsec'
  obtain ⟨sec, hsec, rfl⟩ := hsec'
  by_cases hid : sec.id = sid
  · rw [if_pos hid] at hm ⊢
    rw [List.mem_mapIdx] at hm
    obtain ⟨k, hk, rfl⟩ := hm
    simp [measureDurationSum, sectionSignature]
  · rw [if_neg hid] at hm ⊢
    exact h sec hsec m hm

theorem durationSum_range_map (g : Nat → Beat) (c : ℚ) (hg : ∀ i, (g i).duration = c) :
    ∀ n : Nat, (((List.range n).map g).map fun b => b.duration).sum = n * c := by
  intro n
  induction n with
  | zero => simp
  | succ n ih =>
      rw [List.range_succ]
      simp only [List.map_append, List.map_cons, List.map_nil, List.sum_append,
        List.sum_cons, List.sum_nil, ih, hg]
      push_cast
      ring

theorem measureInvariant_setMeasureSubdivisionOp (ids : Nat → String) (sid mid : String)
    (steps : ℚ) (song : Song) (h : measureInvariant song) :
    measureInvariant (setMeasureSubdivisionOp ids sid mid steps song) := by
  intro sec' hsec' m hm
  simp only [setMeasureSubdivisionOp, List.mem_map] at hsec'
  obtain ⟨sec, hsec, rfl⟩ := hsec'
  by_cases hid : sec.id = sid
  · rw [if_pos hid] at hm ⊢
    simp only [List.mem_map] at hm
    obtain ⟨m₀, hm₀, rfl⟩ := hm
    by_cases hmid : m₀.id = mid
    · rw [if_pos hmid]
      have hne : ((max 1 (min 16 (jsRound steps))).toNat : ℚ) ≠ 0 := by
        have h1 : 1 ≤ (max 1 (min 16 (jsRound steps))).toNat := by omega
        exact Nat.cast_ne_zero.mpr (by omega)
      unfold measureDurationSum
      dsimp only
      refine Eq.trans (durationSum_range_map _
        (beatsFromSignature (sectionSignature song.timeSignature sec) /
          ((max 1 (min 16 (jsRound steps))).toNat : ℚ)) ?_ _) ?_
      · intro idx
        rcases m₀.beats[idx]? with _ | e <;> rfl
      · rw [mul_comm, div_mul_cancel₀ _ hne]
        simp [sectionSignature, setMeasureSubdivisionOp]
    · rw [if_neg hmid]
      exact h sec hsec m₀ hm₀
  · rw [if_neg hid] at hm ⊢
    exact h sec hsec m hm

theorem measureInvariant_mapBeatsOp (song : Song) (h : measureInvariant song)
    (p : SongSection → Prop) [DecidablePred p] (g : Beat → Beat)
    (hg : ∀ b, (g b).duration = b.duration) :
    measureInvariant { song with
      sections := song.sections.map fun sec =>
        if p sec then
          { sec with measures := sec.measures.map fun m =>
              { m with beats := m.beats.map g } }
        else sec } := by
  intro sec' hsec' m hm
  simp only [List.mem_map] at hsec'
  obtain ⟨sec, hsec, rfl⟩ := hsec'
  by_cases hp : p sec
  · rw [if_pos hp] at hm ⊢
    simp only [List.mem_map] at hm
    obtain ⟨m₀, hm₀, rfl⟩ := hm
    rw [measureDurationSum_mapBeats _ _ hg]
    exact h sec hsec m₀ hm₀
  · rw [if_neg hp] at hm ⊢
    exact h sec hsec m hm

theorem measureInvariant_applySongOp (song : Song) (op : SongOp)
    (h : measureInvariant song) : measureInvariant (applySongOp song op) := by
  cases op with
  | newSong ids => exact measureInvariant_newSongOp ids
  | addSection kind ids => exact measureInvariant_addSectionOp ids kind song h
  | duplicateSection sid newSid mIds bIds =>
      exact measureInvariant_duplicateSectionOp newSid mIds bIds sid song h
  | setSectionMeasures sid count ids =>
      exact measureInvariant_setSectionMeasuresOp ids sid count song h
  | setSectionTimeSignature sid signature ids =>
      exact measureInvariant_setSectionTimeSignatureOp ids sid signature song h
  | setMeasureSubdivision sid mid steps ids =>
      exact measureInvariant_setMeasureSubdivisionOp ids sid mid steps song h
  | addChordToSlot chord sid slotId =>
      exact measureInvariant_mapBeatsOp song h (fun sec => sec.id = sid)
        (fun b => if b.id = slotId then { b with chord := some chord } else b)
        (fun b => by by_cases hb : b.id = slotId <;> simp [hb])
  | clearSlot sid slotId =>
      exact measureInvariant_mapBeatsOp song h (fun sec => sec.id = sid)
        (fun b => if b.id = slotId then { b with chord := none } else b)
        (fun b => by by_cases hb : b.id = slotId <;> simp [hb])
  | moveChord fs fSlot ts tSlot =>
      show measureInvariant (moveChordOp fs fSlot ts tSlot song)
      unfold moveChordOp
      dsimp only
      split
      · exact h
      · exact measureInvariant_mapBeatsOp song h (fun _ => True)
          (fun b =>
            if b.id = fSlot then { b with chord := chordAtSlot song tSlot }
            else if b.id = tSlot then { b with chord := chordAtSlot song fSlot }
            else b)
          (fun b => by
            dsimp only
            by_cases hb : b.id = fSlot
            · rw [if_pos hb]
            · rw [if_neg hb]
              by_cases hb' : b.id = tSlot
              · rw [if_pos hb']
              · rw [if_neg hb'])

theorem measureInvariant_runSongOps (ops : List SongOp) : ∀ song : Song,
    measureInvariant song → measureInvariant (runSongOps song ops) := by
  induction ops with
  | nil => intro song h; exact h
  | cons op ops ih =>
      intro song h
      exact ih (applySongOp song op) (measureInvariant_applySongOp song op h)

/-- Counterexample for C7 as stated: after
`setSectionTimeSignature('verse-1', [0, 4])` — an operation the store accepts —
the verse measures' durations sum to 4 (the code's fallback for a falsy
numerator), not to `numerator × (4/denominator) = 0 × (4/4) = 0`. -/
theorem measure_total_beats_counterexample :
    ∃ sec ∈ (runSongOps DEFAULT_SONG
        [SongOp.setSectionTimeSignature "verse-1" (0, 4) (fun n => "x" ++ toString n)]).sections,
      ∃ m ∈ sec.measures,
        measureDurationSum m ≠
          (sectionSignature (runSongOps DEFAULT_SONG
              [SongOp.setSectionTimeSignature "verse-1" (0, 4)
                (fun n => "x" ++ toString n)]).timeSignature sec).1 *
            (4 / (sectionSignature (runSongOps DEFAULT_SONG
              [SongOp.setSectionTimeSignature "verse-1" (0, 4)
                (fun n => "x" ++ toString n)]).timeSignature sec).2) := by
  simp only [runSongOps, List.foldl_cons, List.foldl_nil, applySongOp,
    setSectionTimeSignatureOp, DEFAULT_SONG, List.map_cons, List.map_nil]
  rw [if_pos (trivial : True), if_neg (by decide : ¬ ("chorus-1" : String) = "verse-1")]
  refine ⟨_, List.mem_cons_self _ _, ?_⟩
  simp only [List.mapIdx_cons, List.mapIdx_nil]
  refine ⟨_, List.mem_cons_self _ _, ?_⟩
  simp [measureDurationSum, sectionSignature, beatsFromSignature]

/-- **C7 (amended).** In every store state reachable from the default song
through the song operations (new song, add/duplicate section, set section
measure count, set section time signature, set measure subdivision,
add/clear/move chord), the beat durations of each measure sum to the
measure's total beat count as the store derives it (`beatsFromSignature` of
the governing signature), which equals `numerator × (4/denominator)` whenever
both signature components are nonzero; for a degenerate signature with a zero
component the code falls back to a total of 4 beats. -/
theorem songOps_measure_invariant (ops : List SongOp) :
    measureInvariant (runSongOps DEFAULT_SONG ops) ∧
    ∀ sec ∈ (runSongOps DEFAULT_SONG ops).sections, ∀ m ∈ sec.measures,
      (sectionSignature (runSongOps DEFAULT_SONG ops).timeSignature sec).1 ≠ 0 →
      (sectionSignature (runSongOps DEFAULT_SONG ops).timeSignature sec).2 ≠ 0 →
      measureDurationSum m =
        (sectionSignature (runSongOps DEFAULT_SONG ops).timeSignature sec).1 *
          (4 / (sectionSignature (runSongOps DEFAULT_SONG ops).timeSignature sec).2) := by
  have hinv := measureInvariant_runSongOps ops DEFAULT_SONG measureInvariant_default
  refine ⟨hinv, ?_⟩
  intro sec hsec m hm h1 h2
  rw [hinv sec hsec m hm]
  unfold beatsFromSignature
  rw [if_neg (by tauto)]

theorem foldl_chordAt_no_match (s : String) :
    ∀ (l : List Beat) (acc : Option Chord), (∀ x ∈ l, x.id ≠ s) →
      l.foldl (fun acc b => if b.id = s then b.chord else acc) acc = acc
  | [], _, _ => rfl
  | x :: xs, acc, h => by
      rw [List.foldl_cons, if_neg (h x (List.mem_cons_self _ _))]
      exact foldl_chordAt_no_match s xs acc fun y hy => h y (List.mem_cons_of_mem _ hy)

theorem foldl_chordAt_unique :
    ∀ (l : List Beat) (b : Beat), b ∈ l → ((l.map (·.id)).Nodup) →
      ∀ acc : Option Chord,
        l.foldl (fun acc x => if x.id = b.id then x.chord else acc) acc = b.chord
  | [], b, hb, _, _ => absurd hb (List.not_mem_nil b)
  | x :: xs, b, hb, hnd, acc => by
      have hnd' : x.id ∉ xs.map (·.id) ∧ (xs.map (·.id)).Nodup := by
        rw [List.map_cons, List.nodup_cons] at hnd
        exact hnd
      rw [List.foldl_cons]
      rcases List.mem_cons.mp hb with rfl | hb'
      · rw [if_pos rfl]
        apply foldl_chordAt_no_match
        intro y hy heq
        exact hnd'.1 (heq ▸ List.mem_map_of_mem (·.id) hy)
      · have hx : x.id ≠ b.id := by
          intro heq
          exact hnd'.1 (heq ▸ List.mem_map_of_mem (·.id) hb')
        rw [if_neg hx]
        exact foldl_chordAt_unique xs b hb' hnd'.2 _

/-- With unique beat ids, the lookup pass of `moveChord` returns exactly the
chord of the beat carrying the id. -/
theorem chordAtSlot_of_mem (song : Song) (b : Beat) (hb : b ∈ allBeats song)
    (hnd : ((allBeats song).map (·.id)).Nodup) :
    chordAtSlot song b.id = b.chord :=
  foldl_chordAt_unique _ b hb hnd none

theorem mem_allBeats_of_getElem? {song : Song} {i j k : Nat} {sec : SongSection}
    {m : Measure} {b : Beat} (hs : song.sections[i]? = some sec)
    (hm : sec.measures[j]? = some m) (hb : m.beats[k]? = some b) :
    b ∈ allBeats song := by
  unfold allBeats
  exact List.mem_flatMap.mpr ⟨sec, List.getElem?_mem hs,
    List.mem_flatMap.mpr ⟨m, List.getElem?_mem hm, List.getElem?_mem hb⟩⟩

/-- **C9.** For two beat slot ids present in the song (beat ids being unique),
`moveChord` exchanges exactly the two slots' chord values (the target receives
the source's chord, the source the target's previous chord, possibly null),
leaves every other beat's chord and every beat's id and duration unchanged,
preserves section order, ids, names, kinds, signatures and all other `Song`
fields, and leaves the state entirely unchanged when both slots hold no
chord. -/
theorem moveChord_swaps (song : Song) (fs fromSlot ts toSlot : String)
    (hnd : ((allBeats song).map (·.id)).Nodup)
    (hfrom : fromSlot ∈ (allBeats song).map (·.id))
    (hto : toSlot ∈ (allBeats song).map (·.id)) :
    (let song' := moveChordOp fs fromSlot ts toSlot song
    (song'.id = song.id ∧ song'.title = song.title ∧ song'.artist = song.artist ∧
      song'.key = song.key ∧ song'.tempo = song.tempo ∧
      song'.timeSignature = song.timeSignature ∧
      song'.sections.length = song.sections.length) ∧
    (∀ (i : Nat) (sec : SongSection), song.sections[i]? = some sec →
      ∃ sec', song'.sections[i]? = some sec' ∧
        sec'.id = sec.id ∧ sec'.name = sec.name ∧ sec'.kind = sec.kind ∧
        sec'.timeSignature = sec.timeSignature ∧
        sec'.measures.length = sec.measures.length ∧
        ∀ (j : Nat) (m : Measure), sec.measures[j]? = some m →
          ∃ m', sec'.measures[j]? = some m' ∧ m'.id = m.id ∧
            m'.beats.length = m.beats.length ∧
            ∀ (k : Nat) (b : Beat), m.beats[k]? = some b →
              m'.beats[k]? = some { b with chord :=
                if b.id = fromSlot then chordAtSlot song toSlot
                else if b.id = toSlot then chordAtSlot song fromSlot
                else b.chord }) ∧
    (chordAtSlot song fromSlot = none → chordAtSlot song toSlot = none →
      song' = song)) := by
  intro song'
  by_cases hguard : chordAtSlot song fromSlot = none ∧ chordAtSlot song toSlot = none
  · have hs : song' = song := by
      show moveChordOp fs fromSlot ts toSlot song = song
      unfold moveChordOp
      dsimp only
      rw [if_pos hguard]
    have hbchord : ∀ b : Beat, b ∈ allBeats song →
        ({ b with chord :=
          if b.id = fromSlot then chordAtSlot song toSlot
          else if b.id = toSlot then chordAtSlot song fromSlot
          else b.chord } : Beat) = b := by
      intro b hb
      by_cases h1 : b.id = fromSlot
      · have hb0 : b.chord = none := by
          rw [← chordAtSlot_of_mem song b hb hnd, h1, hguard.1]
        rw [if_pos h1, hguard.2]
        cases b
        simp_all
      · by_cases h2 : b.id = toSlot
        · have hb0 : b.chord = none := by
            rw [← chordAtSlot_of_mem song b hb hnd, h2, hguard.2]
          rw [if_neg h1, if_pos h2, hguard.1]
          cases b
          simp_all
        · rw [if_neg h1, if_neg h2]
    rw [hs]
    refine ⟨⟨rfl, rfl, rfl, rfl, rfl, rfl, rfl⟩, ?_, fun _ _ => rfl⟩
    intro i sec hsec
    refine ⟨sec, hsec, rfl, rfl, rfl, rfl, rfl, ?_⟩
    intro j m hm
    refine ⟨m, hm, rfl, rfl, ?_⟩
    intro k b hb
    rw [hb, hbchord b (mem_allBeats_of_getElem? hsec hm hb)]
  · have hs : song' = { song with sections := song.sections.map fun sec =>
        { sec with measures := sec.measures.map fun m =>
            { m with beats := m.beats.map fun b =>
                if b.id = fromSlot then { b with chord := chordAtSlot song toSlot }
                else if b.id = toSlot then { b with chord := chordAtSlot song fromSlot }
                else b } } } := by
      show moveChordOp fs fromSlot ts toSlot song = _
      unfold moveChordOp
      dsimp only
      rw [if_neg hguard]
    rw [hs]
    refine ⟨⟨rfl, rfl, rfl, rfl, rfl, rfl, by simp⟩, ?_, fun h1 h2 => absurd ⟨h1, h2⟩ hguard⟩
    intro i sec hsec
    refine ⟨{ sec with measures := sec.measures.map fun m =>
        { m with beats := m.beats.map fun b =>
            if b.id = fromSlot then { b with chord := chordAtSlot song toSlot }
            else if b.id = toSlot then { b with chord := chordAtSlot song fromSlot }
            else b } },
      by simp [List.getElem?_map, hsec], rfl, rfl, rfl, rfl, by simp, ?_⟩
    intro j m hm
    refine ⟨{ m with beats := m.beats.map fun b =>
        if b.id = fromSlot then { b with chord := chordAtSlot song toSlot }
        else if b.id = toSlot then { b with chord := chordAtSlot song fromSlot }
        else b },
      by simp [List.getElem?_map, hm], rfl, by simp, ?_⟩
    intro k b hb
    simp only [List.getElem?_map, hb, Option.map_some']
    congr 1
    by_cases h1 : b.id = fromSlot
    · rw [if_pos h1, if_pos h1]
    · rw [if_neg h1, if_neg h1]
      by_cases h2 : b.id = toSlot
      · rw [if_pos h2, if_pos h2]
      · rw [if_neg h2, if_neg h2]

/-- Witness for C9: moving the chord from slot `b1` to `b2` clears `b1` and
places the chord in `b2`. -/
theorem moveChord_swaps_witness :
    ∃ sec', (moveChordOp "s1" "b1" "s1" "b2" moveWitnessSong).sections[0]? = some sec' ∧
      ∃ m', sec'.measures[0]? = some m' ∧
        m'.beats[0]? = some { id := "b1", chord := none, duration := 2 } ∧
        m'.beats[1]? = some { id := "b2", chord := some cMajorChord, duration := 2 } := by
  have h := (moveChord_swaps moveWitnessSong "s1" "b1" "s1" "b2"
    (by simp [allBeats, moveWitnessSong])
    (by simp [allBeats, moveWitnessSong])
    (by simp [allBeats, moveWitnessSong])).2.1 0 _ rfl
  obtain ⟨sec', hsec', _, _, _, _, _, hbeats⟩ := h
  obtain ⟨m', hm', _, _, hb⟩ := hbeats 0 _ rfl
  have hb1 := hb 0 _ rfl
  have hb2 := hb 1 _ rfl
  have hcf : chordAtSlot moveWitnessSong "b1" = some cMajorChord := by
    simp [chordAtSlot, allBeats, moveWitnessSong]
  have hct : chordAtSlot moveWitnessSong "b2" = none := by
    simp [chordAtSlot, allBeats, moveWitnessSong]
  refine ⟨sec', hsec', m', hm', ?_, ?_⟩
  · simpa [hct] using hb1
  · simpa [hcf, hct] using hb2

/-- **C10.** `setSectionMeasures` clamps the requested count to `1..32` after
rounding: the target section ends with exactly `min(32, max(1, round(count)))`
measures — the retained prefix of its old measures unchanged (ids and
contents), any extra slots filled with fresh empty measures — while other
sections are untouched; similarly `setMeasureSubdivision` clamps the step
count to `1..16`, re-cutting the target measure into that many beats. -/
theorem store_clamps (song : Song) (sid mid : String) (count steps : ℚ)
    (ids idsb : Nat → String) :
    (max 1 (min 32 (jsRound count)) = min 32 (max 1 (jsRound count)) ∧
      1 ≤ (max 1 (min 32 (jsRound count))).toNat ∧
      (max 1 (min 32 (jsRound count))).toNat ≤ 32) ∧
    (∀ (i : Nat) (sec : SongSection), song.sections[i]? = some sec →
      (sec.id ≠ sid → (setSectionMeasuresOp ids sid count song).sections[i]? = some sec) ∧
      (sec.id = sid → ∃ sec',
        (setSectionMeasuresOp ids sid count song).sections[i]? = some sec' ∧
        sec'.id = sec.id ∧ sec'.name = sec.name ∧ sec'.kind = sec.kind ∧
        sec'.timeSignature = sec.timeSignature ∧
        sec'.measures.length = (min 32 (max 1 (jsRound count))).toNat ∧
        (∀ j : Nat, j < min sec.measures.length ((min 32 (max 1 (jsRound count))).toNat) →
          sec'.measures[j]? = sec.measures[j]?) ∧
        (∀ j : Nat, sec.measures.length ≤ j → j < (min 32 (max 1 (jsRound count))).toNat →
          sec'.measures[j]? = some (createEmptyMeasure
            (ids (2 * (j - sec.measures.length)))
            (ids (2 * (j - sec.measures.length) + 1))
            (sectionSignature song.timeSignature sec))))) ∧
    (1 ≤ (max 1 (min 16 (jsRound steps))).toNat ∧
      (max 1 (min 16 (jsRound steps))).toNat ≤ 16 ∧
      ∀ (i j : Nat) (sec : SongSection) (m : Measure),
        song.sections[i]? = some sec → sec.id = sid →
        sec.measures[j]? = some m → m.id = mid →
        ∃ sec' m',
          (setMeasureSubdivisionOp idsb sid mid steps song).sections[i]? = some sec' ∧
          sec'.measures[j]? = some m' ∧ m'.id = m.id ∧
          m'.beats.length = (max 1 (min 16 (jsRound steps))).toNat) := by
  refine ⟨⟨by omega, by omega, by omega⟩, ?_, by omega, by omega, ?_⟩
  · intro i sec hsec
    constructor
    · intro hne
      simp only [setSectionMeasuresOp]
      rw [List.getElem?_map, hsec, Option.map_some', if_neg hne]
    · intro heq
      have htc : (max 1 (min 32 (jsRound count))).toNat =
          (min 32 (max 1 (jsRound count))).toNat := by omega
      refine ⟨{ sec with measures :=
          if sec.measures.length < (max 1 (min 32 (jsRound count))).toNat then
            sec.measures ++
              ((List.range ((max 1 (min 32 (jsRound count))).toNat -
                  sec.measures.length)).map fun k =>
                createEmptyMeasure (ids (2 * k)) (ids (2 * k + 1))
                  (sectionSignature song.timeSignature sec))
          else sec.measures.take ((max 1 (min 32 (jsRound count))).toNat) },
        ?_, rfl, rfl, rfl, rfl, ?_, ?_, ?_⟩
      · simp only [setSectionMeasuresOp]
        rw [List.getElem?_map, hsec, Option.map_some', if_pos heq]
      · by_cases hlen : sec.measures.length < (max 1 (min 32 (jsRound count))).toNat
        · rw [if_pos hlen]
          simp only [List.length_append, List.length_map, List.length_range]
          omega
        · rw [if_neg hlen]
          simp only [List.length_take]
          omega
      · intro j hj
        by_cases hlen : sec.measures.length < (max 1 (min 32 (jsRound count))).toNat
        · rw [if_pos hlen, List.getElem?_append]
          rw [if_pos (by omega : j < sec.measures.length)]
        · rw [if_neg hlen, List.getElem?_take]
          rw [if_pos (by omega : j < (max 1 (min 32 (jsRound count))).toNat)]
      · intro j hj1 hj2
        by_cases hlen : sec.measures.length < (max 1 (min 32 (jsRound count))).toNat
        · rw [if_pos hlen,
            List.getElem?_append_right (by omega : sec.measures.length ≤ j),
            List.getElem?_map,
            List.getElem?_range (by omega :
              j - sec.measures.length <
                (max 1 (min 32 (jsRound count))).toNat - sec.measures.length),
            Option.map_some']
        · omega
  · intro i j sec m hsec hid hm hmid
    refine ⟨{ sec with measures := sec.measures.map fun m₀ =>
        if m₀.id = mid then
          { m₀ with beats :=
              (List.range ((max 1 (min 16 (jsRound steps))).toNat)).map fun idx =>
                match m₀.beats[idx]? with
                | some existing =>
                    { id := existing.id, chord := existing.chord,
                      duration :=
                        beatsFromSignature (sectionSignature song.timeSignature sec) /
                          (((max 1 (min 16 (jsRound steps))).toNat : ℚ)) }
                | none =>
                    { id := idsb idx, chord := none,
                      duration :=
                        beatsFromSignature (sectionSignature song.timeSignature sec) /
                          (((max 1 (min 16 (jsRound steps))).toNat : ℚ)) } }
        else m₀ },
      { m with beats :=
          (List.range ((max 1 (min 16 (jsRound steps))).toNat)).map fun idx =>
            match m.beats[idx]? with
            | some existing =>
                { id := existing.id, chord := existing.chord,
                  duration :=
                    beatsFromSignature (sectionSignature song.timeSignature sec) /
                      (((max 1 (min 16 (jsRound steps))).toNat : ℚ)) }
            | none =>
                { id := idsb idx, chord := none,
                  duration :=
                    beatsFromSignature (sectionSignature song.timeSignature sec) /
                      (((max 1 (min 16 (jsRound steps))).toNat : ℚ)) } },
      ?_, ?_, rfl, ?_⟩
    · simp only [setMeasureSubdivisionOp]
      rw [List.getElem?_map, hsec, Option.map_some', if_pos hid]
    · rw [List.getElem?_map, hm, Option.map_some', if_pos hmid]
    · simp only [List.length_map, List.length_range]

/-- Witness for C10: requesting 100 measures on the two-beat witness song's
only section yields exactly 32 measures. -/
theorem store_clamps_witness :
    ∃ sec', (setSectionMeasuresOp (fun n => "n" ++ toString n) "s1" 100
        moveWitnessSong).sections[0]? = some sec' ∧ sec'.measures.length = 32 := by
  have h := ((store_clamps moveWitnessSong "s1" "m1" 100 3
    (fun n => "n" ++ toString n) (fun n => "q" ++ toString n)).2.1 0 _ rfl).2 rfl
  obtain ⟨sec', hsec', _, _, _, _, hlen, _, _⟩ := h
  refine ⟨sec', hsec', ?_⟩
  rw [hlen, show jsRound (100 : ℚ) = 100 by unfold jsRound; norm_num [Int.floor_eq_iff]]
  decide

/-- Witness for C7: the invariant instantiated on the untouched default song's
first verse measure, whose governing signature 4/4 has nonzero components. -/
theorem songOps_measure_invariant_witness :
    measureDurationSum (createEmptyMeasure "vm1" "vb1" DEFAULT_TIME_SIGNATURE) =
      4 * (4 / 4) := by
  have h := (songOps_measure_invariant []).2
    { id := "verse-1", name := "Verse 1", kind := "verse",
      timeSignature := some DEFAULT_TIME_SIGNATURE,
      measures := [
        createEmptyMeasure "vm1" "vb1" DEFAULT_TIME_SIGNATURE,
        createEmptyMeasure "vm2" "vb2" DEFAULT_TIME_SIGNATURE,
        createEmptyMeasure "vm3" "vb3" DEFAULT_TIME_SIGNATURE,
        createEmptyMeasure "vm4" "vb4" DEFAULT_TIME_SIGNATURE] }
    (List.mem_cons_self _ _)
    (createEmptyMeasure "vm1" "vb1" DEFAULT_TIME_SIGNATURE)
    (List.mem_cons_self _ _)
    (by norm_num [sectionSignature, DEFAULT_TIME_SIGNATURE])
    (by norm_num [sectionSignature, DEFAULT_TIME_SIGNATURE])
  simpa [sectionSignature, DEFAULT_TIME_SIGNATURE] using h

end ChordWheel
